import Mathlib

/-!
# Verification of the file-upload component

A shallow embedding of the repository's two subsystems:

* the mock upload simulator `uploadFile` / `uploadMultipleFiles`
  (`src/component/file-upload/lib/upload.ts`), and
* the `FileUpload` widget: configuration resolution (`processedConfig`,
  `settings`), batch file acceptance (`processFiles`,
  `handleMultipleFilesUpload`) and file-list bookkeeping (`removeFile`).

JavaScript numbers used here are integral byte counts and millisecond
durations, modelled as `Nat` / `Int`; the probability values (`failureChance`,
the `Math.random()` draw) and timer due times are modelled as `ℚ`.  Ambient
effects are passed explicitly: the single random draw, the clock reading, and
the id generator are arguments, and outbound parent callbacks are returned as
an explicit list of events.
-/

namespace FileUploadModel

/-- The fields of a browser `File` handle that the code reads:
`file.name`, `file.size` (bytes) and `file.type` (mime string). -/
structure JSFile where
  name : String
  size : Nat
  type : String
deriving Repr, DecidableEq

/-- `UploadOptions` (upload.ts lines 7–14).  A `none` field is a missing
(JavaScript `undefined`) option; the defaults `2000` and `0.1` are applied by
the destructuring at the top of `uploadFile`. -/
structure UploadOptions where
  delay : Option ℚ := none
  failureChance : Option ℚ := none
deriving Repr, DecidableEq

/-- `UploadResult` (upload.ts lines 16–24).  `uploadedAt : Nat` is the
`Date` timestamp at resolution time. -/
structure UploadResult where
  success : Bool
  url : Option String := none
  error : Option String := none
  fileName : String
  fileSize : Nat
  fileType : String
  uploadedAt : Nat
deriving Repr, DecidableEq

/-- The characters matched by the JavaScript regex class `\s` (ASCII part):
space, tab, line feed, vertical tab, form feed, carriage return. -/
def isJsWhitespace (c : Char) : Bool :=
  c = ' ' ∨ c = '\t' ∨ c = '\n' ∨ c = Char.ofNat 11 ∨ c = Char.ofNat 12 ∨ c = '\r'

/-- Core of `name.replace(/\s+/g, '-')`: each maximal run of whitespace
characters becomes a single `'-'`.  The boolean records whether the previous
character was part of a whitespace run. -/
def collapseWs : Bool → List Char → List Char
  | _, [] => []
  | inRun, c :: cs =>
    if isJsWhitespace c then
      if inRun then collapseWs true cs else '-' :: collapseWs true cs
    else
      c :: collapseWs false cs

/-- `file.name.replace(/\s+/g, '-')` (upload.ts line 84). -/
def sanitizeFileName (s : String) : String :=
  ⟨collapseWs false s.data⟩

/-- The synthesized URL of a successful mock upload (upload.ts line 84):
current time and whitespace-sanitized file name. -/
def mockUrl (now : Nat) (name : String) : String :=
  "https://example.com/uploads/" ++ toString now ++ "-" ++ sanitizeFileName name

/-- The resolved value of `uploadFile` (upload.ts lines 26–96) as a pure
function of the call's ambient inputs: `rand` is the single `Math.random()`
draw of line 71 and `now` the clock reading used for `Date.now()` / `Date`.
A `none` file is the falsy-`file` validation branch of lines 37–46. -/
def uploadFile (file : Option JSFile) (options : UploadOptions) (rand : ℚ)
    (now : Nat) : UploadResult :=
  let failureChance := options.failureChance.getD (1 / 10)
  match file with
  | none =>
      { success := false, error := some "No file provided",
        fileName := "", fileSize := 0, fileType := "", uploadedAt := now }
  | some f =>
      if rand < failureChance then
        { success := false, error := some "Upload failed. Please try again.",
          fileName := f.name, fileSize := f.size, fileType := f.type,
          uploadedAt := now }
      else
        { success := true, url := some (mockUrl now f.name),
          fileName := f.name, fileSize := f.size, fileType := f.type,
          uploadedAt := now }

/-- Milliseconds after the call at which the promise returned by `uploadFile`
resolves: immediately (`0`) for a missing file (lines 37–46 return without
scheduling any timer), and after the configured `delay` otherwise (the
completion `setTimeout` of line 67). -/
def uploadResolveDelay (file : Option JSFile) (options : UploadOptions) : ℚ :=
  match file with
  | none => 0
  | some _ => options.delay.getD 2000

/-- An observable event of one `uploadFile` call: a value passed to the
`onProgress` callback, or the delivery of the terminal `UploadResult`. -/
inductive UploadEvent
  | progress (value : Nat)
  | result (r : UploadResult)
deriving Repr, DecidableEq

/-- State of the two timers of one `uploadFile` call.  `progress` is the
captured counter of line 50; `nextTick` is the index of the next `setInterval`
firing, due at `nextTick * (delay / 10)` under ideal timer semantics;
`tickerAlive` is false once `clearInterval` has run; `events` accumulates the
observable events in order; `resolved` is set when the promise resolves. -/
structure SimState where
  progress : Nat
  nextTick : Nat
  tickerAlive : Bool
  events : List UploadEvent
  resolved : Bool
deriving Repr, DecidableEq

/-- The scheduler's comparison between the two timers' due times: the next
`setInterval` firing (tick index `k`, due `k * (delay / 10)`, interval from
line 49) is due no later than the completion `setTimeout` (due `delay`). -/
def tickerDueFirst (delay : ℚ) (k : Nat) : Prop :=
  (k : ℚ) * (delay / 10) ≤ delay

instance (delay : ℚ) (k : Nat) : Decidable (tickerDueFirst delay k) := by
  unfold tickerDueFirst; infer_instance

/-- The `setInterval` callback body (upload.ts lines 52–63): advance the
counter by 10, clamp above at 100, report it to `onProgress`, and clear the
interval once it has reached 100. -/
def tickerFire (s : SimState) : SimState :=
  let p0 := s.progress + 10
  let p := if p0 > 100 then 100 else p0
  { progress := p,
    nextTick := s.nextTick + 1,
    tickerAlive := if p ≥ 100 then false else s.tickerAlive,
    events := s.events ++ [UploadEvent.progress p],
    resolved := s.resolved }

/-- The completion `setTimeout` callback body (upload.ts lines 67–94): stop
the ticker, then resolve with the outcome decided by the random draw. -/
def completionFire (f : JSFile) (options : UploadOptions) (rand : ℚ)
    (now : Nat) (s : SimState) : SimState :=
  { s with tickerAlive := false, resolved := true,
           events := s.events ++ [UploadEvent.result (uploadFile (some f) options rand now)] }

/-- One step of the host event loop restricted to the two timers of one
`uploadFile` call: nothing runs after resolution; otherwise the timer with the
earlier due time fires, and on a tie the progress ticker fires first because
timers with equal expiry fire in registration order and the `setInterval` of
line 52 is registered before the `setTimeout` of line 67. -/
def simStep (delay : ℚ) (fireCompletion : SimState → SimState)
    (s : SimState) : SimState :=
  if s.resolved then s
  else if s.tickerAlive ∧ tickerDueFirst delay s.nextTick then tickerFire s
  else fireCompletion s

/-- Run `fuel` steps of the event loop. -/
def simRun (fuel : Nat) (delay : ℚ) (fireCompletion : SimState → SimState)
    (s : SimState) : SimState :=
  (List.range fuel).foldl (fun st _ => simStep delay fireCompletion st) s

/-- Timer state right after `uploadFile` has scheduled both timers. -/
def initSimState : SimState :=
  { progress := 0, nextTick := 1, tickerAlive := true, events := [], resolved := false }

/-- The full observable event sequence of one `uploadFile` call.  A missing
file resolves immediately without scheduling any timer (lines 37–46); for a
present file the two timers of lines 52 and 67 run to resolution (12 steps of
the event loop suffice: ten ticks, the completion, and a final idle step). -/
def uploadEvents (file : Option JSFile) (options : UploadOptions) (rand : ℚ)
    (now : Nat) : List UploadEvent :=
  match file with
  | none => [UploadEvent.result (uploadFile none options rand now)]
  | some f =>
      let delay := options.delay.getD 2000
      (simRun 12 delay (completionFire f options rand now) initSimState).events

/-- The subsequence of values passed to `onProgress`, in order. -/
def progressValues : List UploadEvent → List Nat
  | [] => []
  | UploadEvent.progress v :: es => v :: progressValues es
  | UploadEvent.result _ :: es => progressValues es

/-- `uploadMultipleFiles` (upload.ts lines 101–107) maps `uploadFile` over the
file list with the shared options; `rands k` is the independent random draw of
the upload at position `k` (counting from `start`). -/
def uploadMultipleAux (options : UploadOptions) (rands : Nat → ℚ) (now : Nat) :
    Nat → List JSFile → List UploadResult
  | _, [] => []
  | start, f :: fs =>
      uploadFile (some f) options (rands start) now ::
        uploadMultipleAux options rands now (start + 1) fs

/-- `uploadMultipleFiles(files, options)`: one `uploadFile` per input file, in
input order, gathered by `Promise.all`. -/
def uploadMultipleFiles (files : List JSFile) (options : UploadOptions)
    (rands : Nat → ℚ) (now : Nat) : List UploadResult :=
  uploadMultipleAux options rands now 0 files

/-- Milliseconds after the call at which `Promise.all` resolves: once every
per-file promise has resolved. -/
def uploadMultipleResolveDelay (files : List JSFile)
    (options : UploadOptions) : ℚ :=
  (files.map (fun f => uploadResolveDelay (some f) options)).foldr max 0

/-- For a positive delay, the `k`-th tick is due no later than the completion
timeout exactly when `k ≤ 10`. -/
theorem tickerDueFirst_iff (d : ℚ) (k : Nat) (hd : 0 < d) :
    tickerDueFirst d k ↔ k ≤ 10 := by
  unfold tickerDueFirst
  rw [← mul_div_assoc, div_le_iff₀ (by norm_num : (0:ℚ) < 10)]
  constructor
  · intro h
    have hk : (k : ℚ) ≤ 10 := by nlinarith
    exact_mod_cast hk
  · intro h
    have hk : (k : ℚ) ≤ 10 := by exact_mod_cast h
    nlinarith

/-- With a positive delay, the event loop of one `uploadFile` call runs the
ten ticks `10, 20, …, 100` (the tenth one stopping the ticker) and then the
completion timer resolves the promise. -/
theorem uploadEvents_some_eq (f : JSFile) (options : UploadOptions) (rand : ℚ)
    (now : Nat) (hd : 0 < options.delay.getD 2000) :
    uploadEvents (some f) options rand now =
      [UploadEvent.progress 10, UploadEvent.progress 20, UploadEvent.progress 30,
       UploadEvent.progress 40, UploadEvent.progress 50, UploadEvent.progress 60,
       UploadEvent.progress 70, UploadEvent.progress 80, UploadEvent.progress 90,
       UploadEvent.progress 100,
       UploadEvent.result (uploadFile (some f) options rand now)] := by
  have hr : List.range 12 = [0,1,2,3,4,5,6,7,8,9,10,11] := by decide
  simp only [uploadEvents, simRun]
  set d := options.delay.getD 2000 with hD
  simp [hr, simStep, tickerFire, completionFire, initSimState,
        tickerDueFirst_iff _ _ hd]

/-- Sample files used by the concrete witnesses. -/
def sampleTxt : JSFile := ⟨"a.txt", 3, "text/plain"⟩

/-- A sample image file whose name contains whitespace. -/
def samplePng : JSFile := ⟨"my file.png", 42, "image/png"⟩

/-- A sample 6 MiB file, larger than the default 5 MB limit. -/
def sampleBig : JSFile := ⟨"big.pdf", 6291456, "application/pdf"⟩

/-- **C1.** For every present file, `uploadFile` with `failureChance = 0`
resolves with `success = true` and with `failureChance = 1` resolves with
`success = false`; in general the outcome is failure, with error
`"Upload failed. Please try again."`, exactly when the single uniform random
draw in `[0,1)` is less than `failureChance` (`0.1` by default), and success
otherwise. -/
theorem uploadFile_outcome (f : JSFile) (options : UploadOptions) (rand : ℚ)
    (now : Nat) (h0 : 0 ≤ rand) (h1 : rand < 1) :
    (uploadFile (some f) { options with failureChance := some 0 } rand now).success = true ∧
    (uploadFile (some f) { options with failureChance := some 1 } rand now).success = false ∧
    (((uploadFile (some f) options rand now).success = false ∧
      (uploadFile (some f) options rand now).error = some "Upload failed. Please try again.") ↔
      rand < options.failureChance.getD (1 / 10)) := by
  refine ⟨?_, ?_, ?_⟩
  · simp [uploadFile, not_lt.mpr h0]
  · simp [uploadFile, h1]
  · by_cases hc : rand < options.failureChance.getD (1 / 10)
    · refine iff_of_true ?_ hc
      simp only [uploadFile]
      rw [if_pos hc]
      exact ⟨rfl, rfl⟩
    · refine iff_of_false ?_ hc
      simp only [uploadFile]
      rw [if_neg hc]
      simp

/-- Witness for `uploadFile_outcome`: the draw `1/2` on `sampleTxt`. -/
theorem uploadFile_outcome_witness :
    (0:ℚ) ≤ 1/2 ∧ (1/2:ℚ) < 1 ∧
    ((uploadFile (some sampleTxt) { failureChance := some 0 } (1/2) 0).success = true ∧
     (uploadFile (some sampleTxt) { failureChance := some 1 } (1/2) 0).success = false ∧
     (((uploadFile (some sampleTxt) {} (1/2) 0).success = false ∧
       (uploadFile (some sampleTxt) {} (1/2) 0).error = some "Upload failed. Please try again.") ↔
       (1/2:ℚ) < ({} : UploadOptions).failureChance.getD (1 / 10))) :=
  ⟨by norm_num, by norm_num,
    uploadFile_outcome sampleTxt {} (1/2) 0 (by norm_num) (by norm_num)⟩

/-- **C3.** For every single simulated upload with a present file (and a
positive configured delay), the sequence of values passed to `onProgress` is
non-decreasing and never exceeds 100, and the trace ends with the terminal
result, immediately after a final progress value of exactly 100: progress
reaches 100 before the terminal result and no progress value is delivered
after it (the ticker is stopped before resolving). -/
theorem upload_progress_sequence (f : JSFile) (options : UploadOptions)
    (rand : ℚ) (now : Nat) (hd : 0 < options.delay.getD 2000) :
    List.Chain' (· ≤ ·) (progressValues (uploadEvents (some f) options rand now)) ∧
    (∀ v ∈ progressValues (uploadEvents (some f) options rand now), v ≤ 100) ∧
    (∃ pre r, uploadEvents (some f) options rand now = pre ++ [UploadEvent.result r] ∧
      (progressValues pre).getLast? = some 100) := by
  rw [uploadEvents_some_eq f options rand now hd]
  refine ⟨?_, ?_, ?_⟩
  · simp only [progressValues]
    simp [List.chain'_cons]
  · simp only [progressValues]
    decide
  · refine ⟨[UploadEvent.progress 10, UploadEvent.progress 20, UploadEvent.progress 30,
       UploadEvent.progress 40, UploadEvent.progress 50, UploadEvent.progress 60,
       UploadEvent.progress 70, UploadEvent.progress 80, UploadEvent.progress 90,
       UploadEvent.progress 100], uploadFile (some f) options rand now, rfl, ?_⟩
    simp only [progressValues]
    decide

/-- Witness for `upload_progress_sequence`: the default 2000 ms delay. -/
theorem upload_progress_sequence_witness :
    0 < ({} : UploadOptions).delay.getD 2000 ∧
    (List.Chain' (· ≤ ·) (progressValues (uploadEvents (some sampleTxt) {} (1/2) 0)) ∧
     (∀ v ∈ progressValues (uploadEvents (some sampleTxt) {} (1/2) 0), v ≤ 100) ∧
     (∃ pre r, uploadEvents (some sampleTxt) {} (1/2) 0 = pre ++ [UploadEvent.result r] ∧
       (progressValues pre).getLast? = some 100)) :=
  ⟨by norm_num [Option.getD], upload_progress_sequence sampleTxt {} (1/2) 0 (by norm_num [Option.getD])⟩

/-- **C6.** `uploadFile` with an absent file resolves immediately (no delay),
with no progress tick (its whole trace is the single terminal result), with
`success = false`, error `"No file provided"` and zeroed metadata.  Totality
of the model reflects that the function resolves rather than throws. -/
theorem uploadFile_no_file (options : UploadOptions) (rand : ℚ) (now : Nat) :
    uploadFile none options rand now =
      { success := false, error := some "No file provided",
        fileName := "", fileSize := 0, fileType := "", uploadedAt := now } ∧
    uploadResolveDelay none options = 0 ∧
    uploadEvents none options rand now =
      [UploadEvent.result (uploadFile none options rand now)] :=
  ⟨rfl, rfl, rfl⟩

/-- **C9.** For every present file and every options value, the resolved
`UploadResult` echoes the file's metadata in both branches, and has `url` set
with no `error` on success, and `error` set with no `url` on failure. -/
theorem uploadFile_metadata (f : JSFile) (options : UploadOptions) (rand : ℚ)
    (now : Nat) :
    (uploadFile (some f) options rand now).fileName = f.name ∧
    (uploadFile (some f) options rand now).fileSize = f.size ∧
    (uploadFile (some f) options rand now).fileType = f.type ∧
    ((uploadFile (some f) options rand now).success = true →
      (uploadFile (some f) options rand now).url = some (mockUrl now f.name) ∧
      (uploadFile (some f) options rand now).error = none) ∧
    ((uploadFile (some f) options rand now).success = false →
      (uploadFile (some f) options rand now).error = some "Upload failed. Please try again." ∧
      (uploadFile (some f) options rand now).url = none) := by
  by_cases hc : rand < options.failureChance.getD (1 / 10)
  · simp only [uploadFile]
    rw [if_pos hc]
    simp
  · simp only [uploadFile]
    rw [if_neg hc]
    simp

/-- Witness for `uploadFile_metadata` on `samplePng`. -/
theorem uploadFile_metadata_witness :
    (uploadFile (some samplePng) {} 0 7).fileName = samplePng.name ∧
    (uploadFile (some samplePng) {} 0 7).fileSize = samplePng.size ∧
    (uploadFile (some samplePng) {} 0 7).fileType = samplePng.type ∧
    ((uploadFile (some samplePng) {} 0 7).success = true →
      (uploadFile (some samplePng) {} 0 7).url = some (mockUrl 7 samplePng.name) ∧
      (uploadFile (some samplePng) {} 0 7).error = none) ∧
    ((uploadFile (some samplePng) {} 0 7).success = false →
      (uploadFile (some samplePng) {} 0 7).error = some "Upload failed. Please try again." ∧
      (uploadFile (some samplePng) {} 0 7).url = none) :=
  uploadFile_metadata samplePng {} 0 7

/-- The length of the mapped upload list equals the input length. -/
theorem uploadMultipleAux_length (options : UploadOptions) (rands : Nat → ℚ)
    (now : Nat) (start : Nat) (fs : List JSFile) :
    (uploadMultipleAux options rands now start fs).length = fs.length := by
  induction fs generalizing start with
  | nil => rfl
  | cons f fs ih => simp [uploadMultipleAux, ih]

/-- The result at position `i` is the upload of the input file at position
`i`, with that position's random draw. -/
theorem uploadMultipleAux_getElem? (options : UploadOptions) (rands : Nat → ℚ)
    (now : Nat) (fs : List JSFile) :
    ∀ (start i : Nat) (f : JSFile), fs[i]? = some f →
      (uploadMultipleAux options rands now start fs)[i]? =
        some (uploadFile (some f) options (rands (start + i)) now) := by
  induction fs with
  | nil =>
      intro start i f h
      simp at h
  | cons g gs ih =>
      intro start i f h
      cases i with
      | zero =>
          simp at h
          subst h
          simp [uploadMultipleAux]
      | succ j =>
          simp only [List.getElem?_cons_succ] at h
          have h2 := ih (start + 1) j f h
          simpa [uploadMultipleAux, Nat.add_assoc, Nat.add_comm 1 j] using h2

/-- A member of a list is bounded by the `foldr max 0` of the list. -/
theorem le_foldr_max (l : List ℚ) (a : ℚ) (h : a ∈ l) : a ≤ l.foldr max 0 := by
  induction l with
  | nil => cases h
  | cons b bs ih =>
      rcases List.mem_cons.mp h with rfl | h2
      · exact le_max_left _ _
      · exact le_trans (ih h2) (le_max_right _ _)

/-- **C5.** For every list of files and every options value,
`uploadMultipleFiles` resolves to a list of `UploadResult` of the same length
as the input, whose entry at each position is the upload of the input file at
that same position (input order preserved); and it resolves only after every
per-file upload has resolved (each per-file resolution delay is bounded by the
delay at which `Promise.all` resolves). -/
theorem uploadMultipleFiles_spec (files : List JSFile) (options : UploadOptions)
    (rands : Nat → ℚ) (now : Nat) :
    (uploadMultipleFiles files options rands now).length = files.length ∧
    (∀ (i : Nat) (f : JSFile), files[i]? = some f →
      (uploadMultipleFiles files options rands now)[i]? =
        some (uploadFile (some f) options (rands i) now)) ∧
    (∀ f ∈ files,
      uploadResolveDelay (some f) options ≤ uploadMultipleResolveDelay files options) := by
  refine ⟨uploadMultipleAux_length options rands now 0 files, ?_, ?_⟩
  · intro i f h
    simpa using uploadMultipleAux_getElem? options rands now files 0 i f h
  · intro f hf
    exact le_foldr_max _ _ (List.mem_map_of_mem _ hf)

/-- Witness for `uploadMultipleFiles_spec`: a two-file batch, position 0. -/
theorem uploadMultipleFiles_spec_witness :
    ([sampleTxt, samplePng][0]? = some sampleTxt) ∧
    (uploadMultipleFiles [sampleTxt, samplePng] {} (fun _ => 1/2) 0)[0]? =
      some (uploadFile (some sampleTxt) {} (1/2) 0) :=
  ⟨rfl, (uploadMultipleFiles_spec [sampleTxt, samplePng] {} (fun _ => 1/2) 0).2.1 0 sampleTxt rfl⟩

/-- The `fileConstraints` section of `FileUploadConfig` (§3 of the shape used
at lines 59–61 and 83/90 of the component). -/
structure FileConstraintsConfig where
  maxSizeInMB : Option Int := none
  acceptedTypes : Option String := none
  multiple : Option Bool := none
deriving Repr, DecidableEq

/-- The `stylePreset` section of `FileUploadConfig` (lines 64–72). -/
structure StylePresetConfig where
  size : Option String := none
  radius : Option String := none
  borderStyle : Option String := none
  iconPlacement : Option String := none
  iconSize : Option String := none
  theme : Option String := none
  customColors : Option (List (String × String)) := none
  padding : Option String := none
deriving Repr, DecidableEq

/-- The `text` section of `FileUploadConfig` (lines 75–92). -/
structure TextConfig where
  title : Option String := none
  buttonText : Option String := none
  dragDropText : Option String := none
  maxFileSizeText : Option String := none
  removeFileText : Option String := none
  previewText : Option String := none
  errorSizeExceeded : Option String := none
  filesCountText : Option String := none
deriving Repr, DecidableEq

/-- The nested `FileUploadConfig` object.  A `none` section or field is a
missing (`undefined`) one, read through optional chaining `?.`. -/
structure FileUploadConfig where
  variant : Option String := none
  fileConstraints : Option FileConstraintsConfig := none
  stylePreset : Option StylePresetConfig := none
  text : Option TextConfig := none
deriving Repr, DecidableEq

/-- The `config` component property: either a structured object or a
JSON-encoded string. -/
inductive ConfigInput
  | obj (c : FileUploadConfig)
  | str (s : String)
deriving Repr, DecidableEq

/-- The component's properties (component 1, lines 15–35).  A `none` field is
an argument the caller did not pass; the destructuring defaults of lines
19–33 are applied inside `settings`. -/
structure FileUploadProps where
  variant : Option String := none
  size : Option String := none
  accept : Option String := none
  maxSizeInMB : Option Int := none
  buttonText : Option String := none
  title : Option String := none
  multiple : Option Bool := none
  radius : Option String := none
  borderStyle : Option String := none
  iconPlacement : Option String := none
  iconSize : Option String := none
  colorScheme : Option String := none
  customColors : Option (List (String × String)) := none
  padding : Option String := none
deriving Repr, DecidableEq

/-- `processedConfig` (component 1, lines 37–50): a missing or falsy `config`
is no configuration; a string is parsed by the host's `JSON.parse`, abstracted
here as `parse`, whose failure (a thrown exception, caught at line 43 and
logged) is `none`; an object is used as is. -/
def processedConfig (parse : String → Option FileUploadConfig) :
    Option ConfigInput → Option FileUploadConfig
  | none => none
  | some (ConfigInput.obj c) => some c
  | some (ConfigInput.str s) => if s = "" then none else parse s

/-- JavaScript `a || b` where `a` is an optionally-present string: `a` wins
exactly when it is present and truthy (non-empty). -/
def strOrElse (a : Option String) (b : String) : String :=
  match a with
  | some s => if s = "" then b else s
  | none => b

/-- JavaScript `a || b` where `a` is an optionally-present number: `a` wins
exactly when it is present and truthy (non-zero). -/
def intOrElse (a : Option Int) (b : Int) : Int :=
  match a with
  | some n => if n = 0 then b else n
  | none => b

/-- The effective settings object computed at lines 53–93. -/
structure EffectiveSettings where
  variant : String
  maxSizeInMB : Int
  accept : String
  multiple : Bool
  size : String
  radius : String
  borderStyle : String
  iconPlacement : String
  iconSize : String
  colorScheme : String
  customColors : List (String × String)
  padding : String
  title : String
  buttonText : String
  dragDropText : String
  maxFileSizeText : String
  removeFileText : String
  previewText : String
  errorSizeExceeded : String
  filesCountText : String
deriving Repr, DecidableEq

/-- The `settings` memo (component 1, lines 53–93): per field, the nested
config value read through optional chaining, `||`-combined with the
destructured property (whose own default from lines 19–33 applies when the
property was not passed), except `multiple`, which uses `??` (nullish
coalescing, line 61).  `customColors` holds objects, which are always truthy
when present, hence plain presence selection.  The two derived text defaults
interpolate `processedConfig?.fileConstraints?.maxSizeInMB || maxSizeInMB`,
exactly as lines 82–84 and 89–91 do. -/
def settings (cfg : Option FileUploadConfig) (props : FileUploadProps) :
    EffectiveSettings :=
  let accept := props.accept.getD "*/*"
  let maxSizeInMB := props.maxSizeInMB.getD 5
  let buttonText := props.buttonText.getD "Choose File"
  let title := props.title.getD "Upload a File"
  let multiple := props.multiple.getD false
  let radius := props.radius.getD "md"
  let borderStyle := props.borderStyle.getD "dashed"
  let iconPlacement := props.iconPlacement.getD "top"
  let iconSize := props.iconSize.getD "md"
  let colorScheme := props.colorScheme.getD "light"
  let customColors := props.customColors.getD []
  let padding := props.padding.getD "md"
  let constraints := cfg.bind FileUploadConfig.fileConstraints
  let preset := cfg.bind FileUploadConfig.stylePreset
  let txt := cfg.bind FileUploadConfig.text
  let resolvedMax := intOrElse (constraints.bind FileConstraintsConfig.maxSizeInMB) maxSizeInMB
  { variant := strOrElse (cfg.bind FileUploadConfig.variant) (strOrElse props.variant "dropzone"),
    maxSizeInMB := resolvedMax,
    accept := strOrElse (constraints.bind FileConstraintsConfig.acceptedTypes) accept,
    multiple := (constraints.bind FileConstraintsConfig.multiple).getD multiple,
    size := strOrElse (preset.bind StylePresetConfig.size) (strOrElse props.size "md"),
    radius := strOrElse (preset.bind StylePresetConfig.radius) radius,
    borderStyle := strOrElse (preset.bind StylePresetConfig.borderStyle) borderStyle,
    iconPlacement := strOrElse (preset.bind StylePresetConfig.iconPlacement) iconPlacement,
    iconSize := strOrElse (preset.bind StylePresetConfig.iconSize) iconSize,
    colorScheme := strOrElse (preset.bind StylePresetConfig.theme) colorScheme,
    customColors := ((preset.bind StylePresetConfig.customColors).getD customColors),
    padding := strOrElse (preset.bind StylePresetConfig.padding) padding,
    title := strOrElse (txt.bind TextConfig.title) title,
    buttonText := strOrElse (txt.bind TextConfig.buttonText) buttonText,
    dragDropText := strOrElse (txt.bind TextConfig.dragDropText) "Click to upload or drag and drop",
    maxFileSizeText := strOrElse (txt.bind TextConfig.maxFileSizeText)
      ("Maximum file size: " ++ toString resolvedMax ++ "MB"),
    removeFileText := strOrElse (txt.bind TextConfig.removeFileText) "Remove file",
    previewText := strOrElse (txt.bind TextConfig.previewText) "Preview:",
    errorSizeExceeded := strOrElse (txt.bind TextConfig.errorSizeExceeded)
      ("File size must be less than " ++ toString resolvedMax ++ "MB"),
    filesCountText := strOrElse (txt.bind TextConfig.filesCountText) "Files" }

/-- A config whose `title` and `maxSizeInMB` are present but falsy and whose
`multiple` is a present `false`; used by concrete witnesses. -/
def cfgFalsy : FileUploadConfig :=
  { text := some { title := some "" },
    fileConstraints := some { maxSizeInMB := some 0, multiple := some false } }

/-- Overrides that compete with `cfgFalsy`; used by concrete witnesses. -/
def propsTruthy : FileUploadProps :=
  { title := some "Y", maxSizeInMB := some 7, multiple := some true }

/-- **C2 counterexample.** The claim's general precedence — a nested config
field that is *present* wins over the explicit override — is false on the
code: selection is by JavaScript truthiness, so the present-but-empty config
title `""` loses to the override `"Y"`. -/
theorem config_presence_precedence_false :
    ¬ (∀ (cfg : FileUploadConfig) (props : FileUploadProps) (t : String),
        cfg.text.bind TextConfig.title = some t →
        (settings (some cfg) props).title = t) := by
  intro h
  have h2 := h { text := some { title := some "" } } { title := some "Y" } "" rfl
  exact absurd h2 (by decide)

/-- **C2 (amended).** Per-field precedence with the code's truthiness rule: a
nested configuration title that is present *and non-empty* wins over the
explicit override argument, which wins over the built-in default
`"Upload a File"`; in particular the claim's three concrete scenarios hold:
config `{text:{title:"X"}}` with override `"Y"` gives `"X"`, no config with
override `"Y"` gives `"Y"`, and neither gives `"Upload a File"`. -/
theorem settings_title_precedence :
    (∀ (cfg : FileUploadConfig) (props : FileUploadProps) (t : String),
        t ≠ "" → cfg.text.bind TextConfig.title = some t →
        (settings (some cfg) props).title = t) ∧
    (∀ (cfg : Option FileUploadConfig) (props : FileUploadProps) (y : String),
        (cfg.bind FileUploadConfig.text).bind TextConfig.title = none →
        props.title = some y → (settings cfg props).title = y) ∧
    (∀ (cfg : Option FileUploadConfig) (props : FileUploadProps),
        (cfg.bind FileUploadConfig.text).bind TextConfig.title = none →
        props.title = none → (settings cfg props).title = "Upload a File") ∧
    (settings (some { text := some { title := some "X" } }) { title := some "Y" }).title = "X" ∧
    (settings none { title := some "Y" }).title = "Y" ∧
    (settings none {}).title = "Upload a File" := by
  refine ⟨?_, ?_, ?_, by decide, by decide, by decide⟩
  · intro cfg props t ht hcfg
    simp [settings, hcfg, strOrElse, ht]
  · intro cfg props y hcfg hy
    simp [settings, hcfg, hy, strOrElse]
  · intro cfg props hcfg hy
    simp [settings, hcfg, hy, strOrElse]

/-- Witness for `settings_title_precedence`: a non-empty config title wins. -/
theorem settings_title_precedence_witness :
    ("X" ≠ "") ∧
    (({ text := some { title := some "X" } } : FileUploadConfig).text.bind TextConfig.title = some "X") ∧
    (settings (some { text := some { title := some "X" } }) {}).title = "X" :=
  ⟨by decide, rfl, settings_title_precedence.1 _ {} "X" (by decide) rfl⟩

/-- **C7.** For every string config the host JSON parser rejects, the
resolver discards the string (the catch branch also logs a diagnostic, a side
effect outside the model) and produces exactly the same effective settings as
when `config` is absent; the malformed string never surfaces in the settings. -/
theorem malformed_config_ignored (parse : String → Option FileUploadConfig)
    (s : String) (props : FileUploadProps) (h : parse s = none) :
    settings (processedConfig parse (some (ConfigInput.str s))) props =
      settings (processedConfig parse none) props := by
  by_cases hs : s = "" <;> simp [processedConfig, hs, h]

/-- Witness for `malformed_config_ignored`: a parser rejecting everything. -/
theorem malformed_config_ignored_witness :
    ((fun _ : String => (none : Option FileUploadConfig)) "not json" = none) ∧
    settings (processedConfig (fun _ => none) (some (ConfigInput.str "not json"))) {} =
      settings (processedConfig (fun _ => none) none) {} :=
  ⟨rfl, malformed_config_ignored (fun _ => none) "not json" {} rfl⟩

/-- **C10.** Settings resolution selects by truthiness, not presence, for all
fields except `multiple`: a present-but-falsy configuration value
(`title = ""`, `maxSizeInMB = 0`) is ignored in favour of the override (or its
default), whereas `multiple` uses nullish coalescing, so a present config
`false` wins over an explicit override `true`. -/
theorem settings_truthiness (cfg : FileUploadConfig) (props : FileUploadProps) :
    (cfg.text.bind TextConfig.title = some "" →
      (settings (some cfg) props).title = props.title.getD "Upload a File") ∧
    (cfg.fileConstraints.bind FileConstraintsConfig.maxSizeInMB = some 0 →
      (settings (some cfg) props).maxSizeInMB = props.maxSizeInMB.getD 5) ∧
    (cfg.fileConstraints.bind FileConstraintsConfig.multiple = some false →
      props.multiple = some true →
      (settings (some cfg) props).multiple = false) := by
  refine ⟨?_, ?_, ?_⟩
  · intro h
    simp [settings, h, strOrElse]
  · intro h
    simp [settings, h, intOrElse]
  · intro h hp
    simp [settings, h]

/-- Witness for `settings_truthiness` on `cfgFalsy` against `propsTruthy`. -/
theorem settings_truthiness_witness :
    (cfgFalsy.text.bind TextConfig.title = some "") ∧
    (cfgFalsy.fileConstraints.bind FileConstraintsConfig.maxSizeInMB = some 0) ∧
    (cfgFalsy.fileConstraints.bind FileConstraintsConfig.multiple = some false) ∧
    (propsTruthy.multiple = some true) ∧
    (settings (some cfgFalsy) propsTruthy).title = propsTruthy.title.getD "Upload a File" ∧
    (settings (some cfgFalsy) propsTruthy).maxSizeInMB = propsTruthy.maxSizeInMB.getD 5 ∧
    (settings (some cfgFalsy) propsTruthy).multiple = false :=
  ⟨rfl, rfl, rfl, rfl,
   (settings_truthiness cfgFalsy propsTruthy).1 rfl,
   (settings_truthiness cfgFalsy propsTruthy).2.1 rfl,
   (settings_truthiness cfgFalsy propsTruthy).2.2 rfl rfl⟩

/-- `formatFileSize` (types.ts lines 51–55).  `toFixed(1)` is modelled by
exact rational rounding (half away from zero) of `bytes/1024` resp.
`bytes/1048576` to one decimal; both denominators are even, so the tie offset
`den / 2` is exact. -/
def toFixed1 (num den : Nat) : String :=
  let t := (num * 10 + den / 2) / den
  toString (t / 10) ++ "." ++ toString (t % 10)

/-- `formatFileSize(bytes)`: `"N bytes"`, `"x.y KB"` or `"x.y MB"`. -/
def formatFileSize (bytes : Nat) : String :=
  if bytes < 1024 then toString bytes ++ " bytes"
  else if bytes < 1048576 then toFixed1 bytes 1024 ++ " KB"
  else toFixed1 bytes 1048576 ++ " MB"

/-- `FileItem` (types.ts lines 41–48): the bookkeeping entry of one accepted
file in the multi-file list.  `url` is the preview data URI, patched in later
by the asynchronous decode. -/
structure FileItem where
  file : JSFile
  id : String
  name : String
  size : String
  type : String
  url : Option String := none
deriving Repr, DecidableEq

/-- The component's `useState` pieces touched by file acceptance and removal
(component 1 lines 112–119; component 2 has the same pieces). -/
structure ComponentState where
  image : Option String := none
  error : Option String := none
  fileName : Option String := none
  fileSize : Option String := none
  fileType : Option String := none
  files : List FileItem := []
deriving Repr, DecidableEq

/-- An outbound parent callback fired by the component. -/
inductive OutboundCall
  | fileChange (f : Option JSFile)
  | filesChange (fs : List JSFile)
  | imageChange (url : Option String)
deriving Repr, DecidableEq

/-- The `FileItem`s built for a batch of accepted files (component 1 lines
166–175): one per file, with ids drawn from the `generateId` stream `idGen`
starting at index `k`. -/
def buildFileItems (idGen : Nat → String) : Nat → List JSFile → List FileItem
  | _, [] => []
  | k, f :: fs =>
      { file := f, id := idGen k, name := f.name,
        size := formatFileSize f.size, type := f.type } :: buildFileItems idGen (k + 1) fs

/-- `processFiles` (component 1, lines 150–250) as a pure transition on the
component state, returning the deferred parent callbacks in firing order.
`idGen` is the `generateId` stream.  The asynchronous `FileReader` preview
decodes (which later patch `url` / `image` and fire `onImageChange` with the
decoded data URI) are external decoding, outside the model; modelled are the
synchronous state updates and the callbacks deferred by `setTimeout(..., 0)`. -/
def processFiles (s : EffectiveSettings) (idGen : Nat → String)
    (st : ComponentState) (acceptedFiles : List JSFile) :
    ComponentState × List OutboundCall :=
  if acceptedFiles.length = 0 then (st, [])
  else if (acceptedFiles.filter
      (fun f => s.maxSizeInMB * 1024 * 1024 < (f.size : Int))).length ≠ 0 then
    ({ st with error := some s.errorSizeExceeded }, [])
  else if s.multiple then
    let newFiles := buildFileItems idGen 0 acceptedFiles
    let updatedFiles := st.files ++ newFiles
    ({ st with files := updatedFiles },
     [OutboundCall.filesChange (updatedFiles.map FileItem.file)])
  else
    match acceptedFiles with
    | [] => (st, [])
    | f :: _ =>
        ({ st with fileName := some f.name, fileSize := some (formatFileSize f.size),
                   fileType := some f.type,
                   image := if f.type.startsWith "image/" then st.image else none },
         OutboundCall.fileChange (some f) ::
           (if f.type.startsWith "image/" then [] else [OutboundCall.imageChange none]))

/-- The per-file error message of component 2 (line 1245). -/
def legacySizeError (name : String) (maxSizeInMB : Int) : String :=
  "File \"" ++ name ++ "\" exceeds the " ++ toString maxSizeInMB ++ "MB size limit"

/-- The `forEach` of component 2's `handleMultipleFilesUpload` (lines
1242–1277): an oversized file overwrites the error (so the last oversized
file's message survives) and is skipped; other files get an id from the
`generateId` stream and become `FileItem`s. -/
def legacyScan (maxSizeInMB : Int) (idGen : Nat → String) :
    List JSFile → Nat → Option String → Option String × List FileItem
  | [], _, err => (err, [])
  | f :: fs, k, err =>
      if maxSizeInMB * 1024 * 1024 < (f.size : Int) then
        legacyScan maxSizeInMB idGen fs k (some (legacySizeError f.name maxSizeInMB))
      else
        let rest := legacyScan maxSizeInMB idGen fs (k + 1) err
        (rest.1,
         { file := f, id := idGen k, name := f.name,
           size := formatFileSize f.size, type := f.type } :: rest.2)

/-- `handleMultipleFilesUpload` (component 2, lines 1233–1287): clear the
error, scan the selected files, and only when no file was oversized append the
new items and notify the parent once; `maxSizeInMB` is that component's plain
property (default 5), there is no configurable error text.  The asynchronous
preview decodes are outside the model, as in `processFiles`. -/
def handleMultipleFilesUpload (maxSizeInMB : Int) (idGen : Nat → String)
    (st : ComponentState) (uploadedFiles : List JSFile) :
    ComponentState × List OutboundCall :=
  let st1 := { st with error := none }
  if uploadedFiles.length = 0 then (st1, [])
  else
    let scanned := legacyScan maxSizeInMB idGen uploadedFiles 0 none
    match scanned.1 with
    | some e => ({ st1 with error := some e }, [])
    | none =>
        ({ st1 with files := st1.files ++ scanned.2 },
         [OutboundCall.filesChange ((st1.files ++ scanned.2).map FileItem.file)])

/-- `removeFile` (component 1 lines 361–377 and component 2 lines 1295–1306,
identical semantics): drop every entry whose `id` matches and notify the
parent once with the files of the new list. -/
def removeFile (st : ComponentState) (id : String) :
    ComponentState × List OutboundCall :=
  let updatedFiles := st.files.filter (fun f => f.id ≠ id)
  ({ st with files := updatedFiles },
   [OutboundCall.filesChange (updatedFiles.map FileItem.file)])

/-- If no file of the list is oversized, the legacy scan leaves the error
accumulator untouched. -/
theorem legacyScan_fst_of_no_oversize (m : Int) (idGen : Nat → String)
    (l : List JSFile) :
    ∀ (k : Nat) (err : Option String),
      (∀ f ∈ l, ¬ m * 1024 * 1024 < (f.size : Int)) →
      (legacyScan m idGen l k err).1 = err := by
  induction l with
  | nil =>
      intro k err _
      rfl
  | cons f fs ih =>
      intro k err h
      have hf := h f (List.mem_cons_self f fs)
      simp only [legacyScan, if_neg hf]
      exact ih (k + 1) err (fun g hg => h g (List.mem_cons_of_mem f hg))

/-- If some file of the list is oversized, the legacy scan ends with the
hardcoded size-limit message of one of the oversized files. -/
theorem legacyScan_fst_of_oversize (m : Int) (idGen : Nat → String)
    (l : List JSFile) :
    ∀ (k : Nat) (err : Option String),
      (∃ f ∈ l, m * 1024 * 1024 < (f.size : Int)) →
      ∃ g ∈ l, m * 1024 * 1024 < (g.size : Int) ∧
        (legacyScan m idGen l k err).1 = some (legacySizeError g.name m) := by
  induction l with
  | nil =>
      rintro k err ⟨f, hf, -⟩
      cases hf
  | cons f fs ih =>
      intro k err hex
      by_cases hover : m * 1024 * 1024 < (f.size : Int)
      · by_cases hrest : ∃ g ∈ fs, m * 1024 * 1024 < (g.size : Int)
        · obtain ⟨g, hg, hgo, heq⟩ := ih k (some (legacySizeError f.name m)) hrest
          refine ⟨g, List.mem_cons_of_mem f hg, hgo, ?_⟩
          simpa only [legacyScan, if_pos hover] using heq
        · push_neg at hrest
          refine ⟨f, List.mem_cons_self f fs, hover, ?_⟩
          simp only [legacyScan, if_pos hover]
          exact legacyScan_fst_of_no_oversize m idGen fs k _
            (fun g hg => not_lt.mpr (hrest g hg))
      · obtain ⟨g0, hg0, hg0o⟩ := hex
        rcases List.mem_cons.mp hg0 with rfl | hmem
        · exact absurd hg0o hover
        obtain ⟨g, hg, hgo, heq⟩ := ih (k + 1) err ⟨g0, hmem, hg0o⟩
        refine ⟨g, List.mem_cons_of_mem f hg, hgo, ?_⟩
        simpa only [legacyScan, if_neg hover] using heq

/-- **C4 counterexample.** The claim says the *configured* `errorSizeExceeded`
message is surfaced when a batch is rejected, but the legacy multi-select
handler (component 2, which has no configurable text at all) surfaces its own
hardcoded per-file message: for the 6 MiB `sampleBig` under the default 5 MB
limit the surfaced message differs from the configured default text. -/
theorem batch_reject_message_counterexample :
    (handleMultipleFilesUpload 5 (fun _ => "id0") {} [sampleBig]).1.error =
      some "File \"big.pdf\" exceeds the 5MB size limit" ∧
    (settings none {}).errorSizeExceeded = "File size must be less than 5MB" ∧
    (handleMultipleFilesUpload 5 (fun _ => "id0") {} [sampleBig]).1.error ≠
      some (settings none {}).errorSizeExceeded ∧
    (handleMultipleFilesUpload 5 (fun _ => "id0") {} [sampleBig]).2 = [] := by
  refine ⟨?_, ?_, ?_, ?_⟩ <;> decide

/-- **C4 (amended).** A batch containing an oversized file is rejected whole
on both acceptance paths: the accepted-files state is left unchanged and no
file-accepted callback fires (the upload simulator is never invoked, so no
progress callback fires either).  The dropzone component's `processFiles`
surfaces the configured `errorSizeExceeded` message; the legacy multi-select
handler instead surfaces its hardcoded per-file size-limit message for an
oversized file of the batch. -/
theorem batch_oversize_rejected (s : EffectiveSettings) (m : Int)
    (idGen : Nat → String) (st : ComponentState) (batch : List JSFile)
    (f : JSFile) (hf : f ∈ batch)
    (hp : s.maxSizeInMB * 1024 * 1024 < (f.size : Int))
    (hm : m * 1024 * 1024 < (f.size : Int)) :
    processFiles s idGen st batch =
      ({ st with error := some s.errorSizeExceeded }, []) ∧
    (handleMultipleFilesUpload m idGen st batch).1.files = st.files ∧
    (handleMultipleFilesUpload m idGen st batch).2 = [] ∧
    (∃ g ∈ batch, m * 1024 * 1024 < (g.size : Int) ∧
      (handleMultipleFilesUpload m idGen st batch).1.error =
        some (legacySizeError g.name m)) := by
  have hne : batch.length ≠ 0 := by
    cases batch with
    | nil => cases hf
    | cons a l => simp
  have hmemf : f ∈ batch.filter (fun g => s.maxSizeInMB * 1024 * 1024 < (g.size : Int)) :=
    List.mem_filter.mpr ⟨hf, by simpa using hp⟩
  have hflt : (batch.filter (fun g => s.maxSizeInMB * 1024 * 1024 < (g.size : Int))).length ≠ 0 := by
    have := List.ne_nil_of_mem hmemf
    simpa [List.length_eq_zero] using this
  obtain ⟨g, hg, hgo, heq⟩ :=
    legacyScan_fst_of_oversize m idGen batch 0 none ⟨f, hf, hm⟩
  refine ⟨?_, ?_, ?_, ⟨g, hg, hgo, ?_⟩⟩
  · simp only [processFiles, if_neg hne, if_pos hflt]
  · simp only [handleMultipleFilesUpload, if_neg hne, heq]
  · simp only [handleMultipleFilesUpload, if_neg hne, heq]
  · simp only [handleMultipleFilesUpload, if_neg hne, heq]

/-- Witness for `batch_oversize_rejected`: the 6 MiB `sampleBig` against the
default settings and the default legacy limit 5. -/
theorem batch_oversize_rejected_witness :
    sampleBig ∈ [sampleBig] ∧
    (settings none {}).maxSizeInMB * 1024 * 1024 < (sampleBig.size : Int) ∧
    (5 : Int) * 1024 * 1024 < (sampleBig.size : Int) ∧
    (processFiles (settings none {}) (fun _ => "id0") {} [sampleBig] =
      ({ ({} : ComponentState) with error := some (settings none {}).errorSizeExceeded }, []) ∧
     (handleMultipleFilesUpload 5 (fun _ => "id0") {} [sampleBig]).1.files =
       ({} : ComponentState).files ∧
     (handleMultipleFilesUpload 5 (fun _ => "id0") {} [sampleBig]).2 = [] ∧
     (∃ g ∈ [sampleBig], (5 : Int) * 1024 * 1024 < (g.size : Int) ∧
       (handleMultipleFilesUpload 5 (fun _ => "id0") {} [sampleBig]).1.error =
         some (legacySizeError g.name 5))) :=
  ⟨by decide, by decide, by decide,
   batch_oversize_rejected (settings none {}) 5 (fun _ => "id0") {} [sampleBig]
     sampleBig (by decide) (by decide) (by decide)⟩

/-- A file item with the id `"dup"`, for the C8 counterexample: `generateId`
builds ids from the clock plus a random suffix, so uniqueness is only
probabilistic and two entries can share an id. -/
def dupItemA : FileItem :=
  { file := sampleTxt, id := "dup", name := "a.txt", size := "3 bytes",
    type := "text/plain" }

/-- A second, distinct file item with the same id `"dup"`. -/
def dupItemB : FileItem :=
  { file := samplePng, id := "dup", name := "my file.png", size := "42 bytes",
    type := "image/png" }

/-- **C8 counterexample.** With two entries sharing the id (ids are only
probabilistically unique), `removeFile` removes both, so a list of length 2
containing the id yields length 0, not N − 1 = 1: the claim as stated is
false. -/
theorem removeFile_duplicate_id_counterexample :
    ¬ (∀ (st : ComponentState) (id : String),
        (∃ f ∈ st.files, f.id = id) →
        (removeFile st id).1.files.length = st.files.length - 1) := by
  intro h
  have h2 := h { files := [dupItemA, dupItemB] } "dup" ⟨dupItemA, by decide, rfl⟩
  exact absurd h2 (by decide)

/-- Removing by an id that occurs exactly once shortens the list by one. -/
theorem filter_ne_id_length (id : String) (l : List FileItem)
    (h : l.countP (fun f => f.id = id) = 1) :
    (l.filter (fun f => f.id ≠ id)).length = l.length - 1 := by
  induction l with
  | nil => simp at h
  | cons a as ih =>
      by_cases ha : a.id = id
      · have hz : as.countP (fun f => f.id = id) = 0 := by
          simpa [List.countP_cons, ha] using h
        have hall : ∀ f ∈ as, ¬ f.id = id := by
          intro f hfm hfe
          have hpos : 0 < as.countP (fun f => f.id = id) :=
            List.countP_pos_iff.mpr ⟨f, hfm, by simpa using hfe⟩
          omega
        have hkeep : as.filter (fun f => f.id ≠ id) = as :=
          List.filter_eq_self.mpr (fun f hfm => by simpa using hall f hfm)
        have hdrop : (a :: as).filter (fun f => f.id ≠ id) =
            as.filter (fun f => f.id ≠ id) := by
          simp [List.filter_cons, ha]
        rw [hdrop, hkeep]
        simp
      · have h1 : as.countP (fun f => f.id = id) = 1 := by
          simpa [List.countP_cons, ha] using h
        have hlen : 1 ≤ as.length := by
          cases as with
          | nil => simp at h1
          | cons b bs => simp
        have hcons : (a :: as).filter (fun f => f.id ≠ id) =
            a :: as.filter (fun f => f.id ≠ id) := by
          simp [List.filter_cons, ha]
        rw [hcons]
        simp only [List.length_cons, ih h1]
        omega

/-- **C8 (amended).** For every file list containing *exactly one* entry with
the given id, `removeFile` yields a list of length N − 1 in which no entry has
that id, keeps every other entry in unchanged order (the result is a sublist
of the input containing every entry whose id differs), and fires exactly one
outbound files-changed notification carrying the new set. -/
theorem removeFile_spec (st : ComponentState) (id : String)
    (h : st.files.countP (fun f => f.id = id) = 1) :
    (removeFile st id).1.files.length = st.files.length - 1 ∧
    (∀ f ∈ (removeFile st id).1.files, f.id ≠ id) ∧
    (removeFile st id).1.files.Sublist st.files ∧
    (∀ f ∈ st.files, f.id ≠ id → f ∈ (removeFile st id).1.files) ∧
    (removeFile st id).2 =
      [OutboundCall.filesChange ((removeFile st id).1.files.map FileItem.file)] := by
  refine ⟨filter_ne_id_length id st.files h, ?_, ?_, ?_, rfl⟩
  · intro f hfm
    have := (List.mem_filter.mp hfm).2
    simpa using this
  · exact List.filter_sublist st.files
  · intro f hfm hne
    exact List.mem_filter.mpr ⟨hfm, by simpa using hne⟩

/-- Witness for `removeFile_spec`: removing `dupItemA` from a two-entry list
with distinct ids. -/
theorem removeFile_spec_witness :
    ([dupItemA, { dupItemB with id := "other" }].countP (fun f => f.id = "dup") = 1) ∧
    ((removeFile { files := [dupItemA, { dupItemB with id := "other" }] } "dup").1.files.length =
      [dupItemA, { dupItemB with id := "other" }].length - 1 ∧
     (∀ f ∈ (removeFile { files := [dupItemA, { dupItemB with id := "other" }] } "dup").1.files,
        f.id ≠ "dup") ∧
     (removeFile { files := [dupItemA, { dupItemB with id := "other" }] } "dup").1.files.Sublist
        [dupItemA, { dupItemB with id := "other" }] ∧
     (∀ f ∈ [dupItemA, { dupItemB with id := "other" }], f.id ≠ "dup" →
        f ∈ (removeFile { files := [dupItemA, { dupItemB with id := "other" }] } "dup").1.files) ∧
     (removeFile { files := [dupItemA, { dupItemB with id := "other" }] } "dup").2 =
       [OutboundCall.filesChange
         ((removeFile { files := [dupItemA, { dupItemB with id := "other" }] } "dup").1.files.map
           FileItem.file)]) :=
  ⟨by decide,
   removeFile_spec { files := [dupItemA, { dupItemB with id := "other" }] } "dup" (by decide)⟩

end FileUploadModel
